import Mathlib

/-
Verification of the bartenders-friend normalization and merge logic.

The development shallowly embeds the two pipeline stages:
- `etl_stage1.py` / `load_all_drinks`: the wide-format reshaper that turns one
  source row with 15 numbered ingredient/measure slots into measurement records;
- `scripts/migration/migrate_sources.py`: the normalizer that resolves
  dimension rows (ingredient, glass type), upserts cocktails keyed by
  (name, source), and upserts relationships keyed by (cocktail, ingredient).

The relational datastore is modelled as explicit lists of rows plus serial
counters.  SQL semantics that matter here are modelled faithfully:
`WHERE col = NULL` never matches, `MAX` over text ignores NULLs and uses
codepoint (C-collation) order, `ON CONFLICT DO UPDATE` rewrites the
conflicting row, `LIMIT` truncates the ordered result, and Python truthiness
governs the optional limit and the glass-name guard.
-/

namespace BartendersFriend

/-- Characters stripped from both ends, modelling Python str.strip. -/
def stripChars (l : List Char) : List Char :=
  ((l.dropWhile Char.isWhitespace).reverse.dropWhile Char.isWhitespace).reverse

/-- Python s.strip() on a Lean string. -/
def pyStrip (s : String) : String := String.mk (stripChars s.data)

/-- One pass of Python str.title: an alphabetic character is lowercased when the
previous character was alphabetic and uppercased otherwise. -/
def titleChars : Bool → List Char → List Char
  | _, [] => []
  | prevAlpha, c :: cs =>
      if c.isAlpha then
        (if prevAlpha then c.toLower else c.toUpper) :: titleChars true cs
      else
        c :: titleChars false cs

/-- Python s.title(). -/
def pyTitle (s : String) : String := String.mk (titleChars false s.data)

/-- Python truthiness of an optional string: None and the empty string are falsy. -/
def pyFalsy : Option String → Bool
  | none => true
  | some s => s == ""

/-- Codepoint comparison of character lists (C collation). -/
def charsLE : List Char → List Char → Bool
  | [], _ => true
  | _ :: _, [] => false
  | a :: as, b :: bs => if a < b then true else if b < a then false else charsLE as bs

/-- Codepoint string comparison, modelling ORDER BY and MAX over a text column. -/
def strLE (a b : String) : Bool := charsLE a.data b.data

/-- SQL MAX over a text column: NULLs are ignored; the result is NULL only when
no non-null value exists. -/
def sqlMaxStr (l : List (Option String)) : Option String :=
  l.foldl (fun acc x =>
    match acc, x with
    | none, v => v
    | some a, none => some a
    | some a, some b => if strLE a b then some b else some a) none

/-- SQL equality in a WHERE clause: NULL compares false against everything,
including NULL. -/
def sqlEqName : Option String → Option String → Bool
  | some a, some b => a == b
  | _, _ => false

/-- COALESCE of two nullable values. -/
def coalesce : Option α → Option α → Option α
  | some a, _ => some a
  | none, b => b

/-- Insertion step for sorting strings. -/
def insertStr (x : String) : List String → List String
  | [] => [x]
  | y :: ys => if strLE x y then x :: y :: ys else y :: insertStr x ys

/-- Insertion sort on strings, modelling ORDER BY over a grouped name column. -/
def sortStrings (l : List String) : List String := l.foldr insertStr []

/-- Update the first list entry satisfying p: the row hit by ON CONFLICT DO
UPDATE under a uniqueness constraint. -/
def updateFirst (p : α → Bool) (f : α → α) : List α → List α
  | [] => []
  | x :: xs => if p x then f x :: xs else x :: updateFirst p f xs

/-! ## Canonical schema -/

structure GlassRow where
  id : Nat
  name : Option String
deriving DecidableEq

structure IngredientRow where
  id : Nat
  name : String
deriving DecidableEq

structure CocktailRow where
  id : Nat
  name : String
  source : String
  category : Option String
  glassTypeId : Option Nat
  description : Option String
  instructions : Option String
deriving DecidableEq

structure CIRow where
  cocktailId : Nat
  ingredientId : Nat
  quantity : Option String
  ingredientOrder : Option Int
  sourceDataset : Option String
deriving DecidableEq

/-- The canonical tables plus the serial-id counters. -/
structure DB where
  glassTypes : List GlassRow
  ingredients : List IngredientRow
  cocktails : List CocktailRow
  cocktailIngredients : List CIRow
  nextGlassId : Nat
  nextIngredientId : Nat
  nextCocktailId : Nat
deriving DecidableEq

def emptyDB : DB := ⟨[], [], [], [], 1, 1, 1⟩

/-! ## migrate_sources.py: dimension resolvers and upserts -/

/-- title_case from migrate_sources.py: None passes through; otherwise strip,
and a blank result becomes None. -/
def title_case : Option String → Option String
  | none => none
  | some t =>
      let st := pyStrip t
      if st == "" then none else some (pyTitle st)

/-- get_or_create_glass from migrate_sources.py.  A falsy name is the valid
"no glass" case.  Otherwise the title-cased name is looked up with SQL
equality (a NULL key never matches) and inserted when absent. -/
def get_or_create_glass (db : DB) (name : Option String) : Option Nat × DB :=
  if pyFalsy name then (none, db)
  else
    match db.glassTypes.find? (fun r => sqlEqName r.name (title_case name)) with
    | some r => (some r.id, db)
    | none =>
        (some db.nextGlassId,
         { db with glassTypes := db.glassTypes ++ [⟨db.nextGlassId, title_case name⟩],
                   nextGlassId := db.nextGlassId + 1 })

/-- get_or_create_ingredient from migrate_sources.py: strip the name, raise
ValueError when blank, otherwise read-then-insert by exact name. -/
def get_or_create_ingredient (db : DB) (name : String) : Except String (Nat × DB) :=
  if pyStrip name == "" then .error "ingredient name cannot be empty"
  else
    match db.ingredients.find? (fun r => r.name == pyStrip name) with
    | some r => .ok (r.id, db)
    | none =>
        .ok (db.nextIngredientId,
          { db with ingredients := db.ingredients ++ [⟨db.nextIngredientId, pyStrip name⟩],
                    nextIngredientId := db.nextIngredientId + 1 })

/-- The (name, source) uniqueness key of the cocktail table. -/
def cocktailKey (name source : String) (r : CocktailRow) : Bool :=
  r.name == name && r.source == source

def findCocktail (db : DB) (name source : String) : Option CocktailRow :=
  db.cocktails.find? (cocktailKey name source)

/-- The DO UPDATE SET clause of upsert_cocktail: category unconditionally,
the other three fields coalesced with the stored value. -/
def mergeCocktailRow (category : Option String) (glassId : Option Nat)
    (description instructions : Option String) (r : CocktailRow) : CocktailRow :=
  { r with category := category,
           glassTypeId := coalesce glassId r.glassTypeId,
           description := coalesce description r.description,
           instructions := coalesce instructions r.instructions }

/-- upsert_cocktail from migrate_sources.py: resolve the glass, insert, and on
a (name, source) conflict apply `mergeCocktailRow`; RETURNING id gives the
row's identifier in both paths. -/
def upsert_cocktail (db : DB) (name source : String)
    (category glass description instructions : Option String) : Nat × DB :=
  match (get_or_create_glass db glass).2.cocktails.find? (cocktailKey name source) with
  | some r =>
      (r.id,
       { (get_or_create_glass db glass).2 with cocktails :=
           (updateFirst (cocktailKey name source)
             (mergeCocktailRow category (get_or_create_glass db glass).1
               description instructions)
             (get_or_create_glass db glass).2.cocktails) })
  | none =>
      ((get_or_create_glass db glass).2.nextCocktailId,
       { (get_or_create_glass db glass).2 with
         cocktails := (get_or_create_glass db glass).2.cocktails ++
           [⟨(get_or_create_glass db glass).2.nextCocktailId, name, source, category,
             (get_or_create_glass db glass).1, description, instructions⟩],
         nextCocktailId := (get_or_create_glass db glass).2.nextCocktailId + 1 })

/-- The (cocktail_id, ingredient_id) uniqueness key of cocktail_ingredient. -/
def ciKey (cid iid : Nat) (r : CIRow) : Bool :=
  r.cocktailId == cid && r.ingredientId == iid

def findCI (db : DB) (cid iid : Nat) : Option CIRow :=
  db.cocktailIngredients.find? (ciKey cid iid)

/-- upsert_cocktail_ingredient from migrate_sources.py: insert, and on a
(cocktail_id, ingredient_id) conflict overwrite quantity, ingredient_order and
source_dataset unconditionally. -/
def upsert_cocktail_ingredient (db : DB) (cocktail_id ingredient_id : Nat)
    (quantity : Option String) (order_index : Option Int)
    (source_dataset : Option String) : DB :=
  match db.cocktailIngredients.find? (ciKey cocktail_id ingredient_id) with
  | some _ =>
      { db with cocktailIngredients :=
          (updateFirst (ciKey cocktail_id ingredient_id)
            (fun r => { r with quantity := quantity, ingredientOrder := order_index,
                               sourceDataset := source_dataset })
            db.cocktailIngredients) }
  | none =>
      { db with cocktailIngredients :=
          db.cocktailIngredients ++
            [⟨cocktail_id, ingredient_id, quantity, order_index, source_dataset⟩] }

/-! ## migrate_sources.py: staging tables and per-source importers -/

/-- A row of the unconstrained the_cocktail_db staging table. -/
structure TCDBRow where
  drink : String
  category : Option String
  glass : Option String
  ingredient_order : Option Int
  ingredient : Option String
  measure : Option String
deriving DecidableEq

/-- A row of the unconstrained boston_cocktails staging table. -/
structure BostonRow where
  name : String
  category : Option String
  ingredient_number : Option String
  ingredient : Option String
  measure : Option String
deriving DecidableEq

/-- ORDER BY an integer order key with NULLS LAST. -/
def orderKeyLE : Option Int → Option Int → Bool
  | some x, some y => x ≤ y
  | some _, none => true
  | none, some _ => false
  | none, none => true

/-- An ingredient row as fetched per drink: (order key, ingredient, measure). -/
abbrev IngTriple := Option Int × String × Option String

def insertByOrder (x : IngTriple) : List IngTriple → List IngTriple
  | [] => [x]
  | y :: ys => if orderKeyLE x.1 y.1 then x :: y :: ys else y :: insertByOrder x ys

def sortByOrderKey (l : List IngTriple) : List IngTriple := l.foldr insertByOrder []

def digitsToNat : List Char → Nat → Nat
  | [], acc => acc
  | c :: cs, acc => digitsToNat cs (acc * 10 + (c.toNat - 48))

/-- The boston order-key cast: CASE WHEN the text matches digits-only THEN its
integer value ELSE NULL END. -/
def parseOrderKey : Option String → Option Int
  | none => none
  | some t =>
      if t.data.isEmpty then none
      else if t.data.all Char.isDigit then some (Int.ofNat (digitsToNat t.data 0))
      else none

/-- The per-source counters returned by the importers. -/
structure ImportCounts where
  created : Nat
  skipped : Nat
  rels : Nat
  conflicts : Nat
deriving DecidableEq

/-- The shape shared by both importers: the source name, the per-drink MAX
aggregates fed to the cocktail upsert, and the ordered ingredient rows. -/
structure SourceSpec where
  srcName : String
  categoryOf : String → Option String
  glassOf : String → Option String
  ingRowsOf : String → List IngTriple

/-- Body of the per-ingredient loop: resolve the ingredient, with the
ValueError branch handled by continue, then upsert the relationship and count
it. -/
def ingredientStep (srcName : String) (cid : Nat) (acc : DB × Nat)
    (row : IngTriple) : DB × Nat :=
  match get_or_create_ingredient acc.1 row.2.1 with
  | .error _ => acc
  | .ok (iid, db1) =>
      (upsert_cocktail_ingredient db1 cid iid row.2.2 row.1 (some srcName), acc.2 + 1)

/-- Body of the per-drink loop: upsert the cocktail with the group's MAX
attributes, then fold the drink's ordered ingredient rows. -/
def drinkStep (sp : SourceSpec) (acc : ImportCounts × DB) (d : String) :
    ImportCounts × DB :=
  let up := upsert_cocktail acc.2 d sp.srcName (sp.categoryOf d) (sp.glassOf d) none none
  let fin := (sp.ingRowsOf d).foldl (ingredientStep sp.srcName up.1) (up.2, acc.1.rels)
  ({ acc.1 with created := acc.1.created + 1, rels := fin.2 }, fin.1)

/-- The LIMIT clause is appended only when the Python limit is truthy, so both
None and 0 mean no limit. -/
def applyLimit (limit : Option Nat) (l : List String) : List String :=
  match limit with
  | none => l
  | some n => if n == 0 then l else l.take n

/-- The importer loop: distinct names ordered ascending, optionally limited,
each processed by `drinkStep`; counters start from zero. -/
def runImport (sp : SourceSpec) (db : DB) (names : List String)
    (limit : Option Nat) : ImportCounts × DB :=
  (applyLimit limit (sortStrings names.dedup)).foldl (drinkStep sp) (⟨0, 0, 0, 0⟩, db)

/-- The queries of import_the_cocktail_db: GROUP BY drink with MAX(glass) and
MAX(category), and per drink the non-null ingredients ordered by
ingredient_order NULLS LAST. -/
def tcdbSpec (st : List TCDBRow) : SourceSpec where
  srcName := "the_cocktail_db"
  categoryOf := fun d =>
    sqlMaxStr ((st.filter (fun r => r.drink == d)).map (fun r => r.category))
  glassOf := fun d =>
    sqlMaxStr ((st.filter (fun r => r.drink == d)).map (fun r => r.glass))
  ingRowsOf := fun d =>
    sortByOrderKey (st.filterMap (fun r =>
      if r.drink == d then
        r.ingredient.map (fun ing => (r.ingredient_order, ing, r.measure))
      else none))

def import_the_cocktail_db (db : DB) (st : List TCDBRow) (limit : Option Nat) :
    ImportCounts × DB :=
  runImport (tcdbSpec st) db (st.map (fun r => r.drink)) limit

/-- The queries of import_boston_cocktails: GROUP BY name with MAX(category),
no glass in this dataset, and per name the non-null ingredients ordered by the
parsed ingredient_number NULLS LAST. -/
def bostonSpec (st : List BostonRow) : SourceSpec where
  srcName := "boston_cocktails"
  categoryOf := fun d =>
    sqlMaxStr ((st.filter (fun r => r.name == d)).map (fun r => r.category))
  glassOf := fun _ => none
  ingRowsOf := fun d =>
    sortByOrderKey (st.filterMap (fun r =>
      if r.name == d then
        r.ingredient.map (fun ing => (parseOrderKey r.ingredient_number, ing, r.measure))
      else none))

def import_boston_cocktails (db : DB) (st : List BostonRow) (limit : Option Nat) :
    ImportCounts × DB :=
  runImport (bostonSpec st) db (st.map (fun r => r.name)) limit

/-! ## etl_stage1.py: the wide-format reshaper -/

/-- One wide-format source row: the drink name and the 15 ingredient/measure
slot pairs, a missing cell being none. -/
structure WideRow where
  strDrink : String
  ingredientSlots : List (Option String)
  measureSlots : List (Option String)
deriving DecidableEq

/-- A record appended to measurements_list by load_all_drinks. -/
structure MeasurementRec where
  cocktail_name : String
  ingredient_name : String
  quantity : String
  source : String
deriving DecidableEq

/-- The body of the slot loop of load_all_drinks for 1-based slot i: a record
is produced when the ingredient cell is non-missing; a missing measure cell
becomes the empty string. -/
def slotRecord (row : WideRow) (i : Nat) : Option MeasurementRec :=
  match row.ingredientSlots.getD (i - 1) none with
  | none => none
  | some ing =>
      some { cocktail_name := row.strDrink,
             ingredient_name := ing,
             quantity := (match row.measureSlots.getD (i - 1) none with
                          | some m => m
                          | none => ""),
             source := "all_drinks" }

/-- The records one wide row contributes, slots 1..15 in order. -/
def load_all_drinks_row (row : WideRow) : List MeasurementRec :=
  (List.range 15).filterMap (fun j => slotRecord row (j + 1))

/-- Number of ingredient rows stored under an exact name; the table's
uniqueness constraint keeps this at most one. -/
def countIngName (db : DB) (key : String) : Nat :=
  (db.ingredients.filter (fun r => r.name == key)).length

/-! ## Helper lemmas about the generic list operations -/

theorem coalesce_none_right (a : Option α) : coalesce a none = a := by
  cases a <;> rfl

theorem coalesce_some_left (a : α) (b : Option α) : coalesce (some a) b = some a := rfl

theorem coalesce_none_left (b : Option α) : coalesce none b = b := rfl

theorem updateFirst_find?_self {p : α → Bool} {f : α → α} {l : List α} {r : α}
    (h : l.find? p = some r) (hf : p (f r) = true) :
    (updateFirst p f l).find? p = some (f r) := by
  induction l with
  | nil => simp at h
  | cons x xs ih =>
      by_cases hx : p x = true
      · have hrx : r = x := by
          rw [List.find?_cons_of_pos _ hx] at h
          exact (Option.some_inj.mp h).symm
        subst hrx
        simp [updateFirst, hx, List.find?_cons_of_pos _ hf]
      · have hx' : p x = false := by simpa using hx
        rw [List.find?_cons_of_neg _ (by simp [hx'])] at h
        simp [updateFirst, hx', List.find?_cons_of_neg, ih h]

theorem updateFirst_find?_disjoint {p q : α → Bool} {f : α → α} {l : List α}
    (hpq : ∀ x, q x = true → p x = false)
    (hpf : ∀ x, q x = true → p (f x) = false) :
    (updateFirst q f l).find? p = l.find? p := by
  induction l with
  | nil => rfl
  | cons x xs ih =>
      by_cases hx : q x = true
      · simp [updateFirst, hx, List.find?_cons_of_neg, hpq x hx, hpf x hx]
      · have hx' : q x = false := by simpa using hx
        by_cases hp : p x = true
        · simp [updateFirst, hx', List.find?_cons_of_pos _ hp]
        · have hp' : p x = false := by simpa using hp
          simp [updateFirst, hx', List.find?_cons_of_neg, hp', ih]

theorem find?_append_single_false {p : α → Bool} (l : List α) {a : α}
    (h : p a = false) : (l ++ [a]).find? p = l.find? p := by
  rw [List.find?_append]
  cases hl : l.find? p with
  | some r => rfl
  | none => simp [List.find?_cons_of_neg, h]

theorem find?_append_of_none {p : α → Bool} {l₁ : List α} (l₂ : List α)
    (h : l₁.find? p = none) : (l₁ ++ l₂).find? p = l₂.find? p := by
  rw [List.find?_append, h]
  rfl

theorem insertStr_perm (x : String) (l : List String) :
    (insertStr x l).Perm (x :: l) := by
  induction l with
  | nil => exact List.Perm.refl _
  | cons y ys ih =>
      by_cases h : strLE x y = true
      · simp [insertStr, h]
      · have h' : strLE x y = false := by simpa using h
        simp only [insertStr, h', Bool.false_eq_true, if_false]
        exact (ih.cons y).trans (List.Perm.swap x y ys)

theorem sortStrings_perm (l : List String) : (sortStrings l).Perm l := by
  induction l with
  | nil => exact List.Perm.refl _
  | cons x xs ih =>
      exact (insertStr_perm x (sortStrings xs)).trans (ih.cons x)

theorem processed_nodup (names : List String) (limit : Option Nat) :
    (applyLimit limit (sortStrings names.dedup)).Nodup := by
  have hs : (sortStrings names.dedup).Nodup :=
    ((sortStrings_perm names.dedup).nodup_iff).mpr (List.nodup_dedup names)
  cases limit with
  | none => exact hs
  | some n =>
      by_cases h : n == 0
      · simpa [applyLimit, h] using hs
      · have h' : (n == 0) = false := by simpa using h
        simpa [applyLimit, h'] using (List.take_sublist n _).nodup hs

/-! ## Preservation lemmas: which tables each operation leaves untouched -/

theorem get_or_create_glass_cocktails (db : DB) (g : Option String) :
    (get_or_create_glass db g).2.cocktails = db.cocktails := by
  unfold get_or_create_glass
  split
  · rfl
  · split <;> rfl

theorem get_or_create_ingredient_cocktails {db : DB} {n : String} {i : Nat} {db1 : DB}
    (h : get_or_create_ingredient db n = .ok (i, db1)) : db1.cocktails = db.cocktails := by
  unfold get_or_create_ingredient at h
  split at h
  · cases h
  · split at h <;> (cases h; rfl)

theorem upsert_cocktail_ingredient_cocktails (db : DB) (cid iid : Nat)
    (q : Option String) (o : Option Int) (s : Option String) :
    (upsert_cocktail_ingredient db cid iid q o s).cocktails = db.cocktails := by
  unfold upsert_cocktail_ingredient
  split <;> rfl

theorem ingredientStep_cocktails (srcName : String) (cid : Nat) (acc : DB × Nat)
    (row : IngTriple) : (ingredientStep srcName cid acc row).1.cocktails = acc.1.cocktails := by
  unfold ingredientStep
  split
  · rfl
  · rename_i iid db1 h
    simp only [upsert_cocktail_ingredient_cocktails]
    exact get_or_create_ingredient_cocktails h

theorem ingFold_cocktails (srcName : String) (cid : Nat) (l : List IngTriple)
    (acc : DB × Nat) :
    (l.foldl (ingredientStep srcName cid) acc).1.cocktails = acc.1.cocktails := by
  induction l generalizing acc with
  | nil => rfl
  | cons x xs ih => rw [List.foldl_cons, ih, ingredientStep_cocktails]

theorem findCocktail_congr {db1 db2 : DB} (h : db1.cocktails = db2.cocktails)
    (n s : String) : findCocktail db1 n s = findCocktail db2 n s := by
  unfold findCocktail
  rw [h]

/-! ## The upsert_cocktail merge specification -/

theorem cocktailKey_true_iff (n s : String) (r : CocktailRow) :
    cocktailKey n s r = true ↔ r.name = n ∧ r.source = s := by
  simp [cocktailKey]

theorem cocktailKey_merge (n s : String) (cat : Option String) (gid : Option Nat)
    (de i : Option String) (r : CocktailRow) :
    cocktailKey n s (mergeCocktailRow cat gid de i r) = cocktailKey n s r := rfl

/-- What upsert_cocktail leaves at its own key: the returned id is the stored
row's id, category is taken from the incoming value unconditionally, and the
other three fields coalesce the incoming value with the previously stored
one. -/
theorem upsert_cocktail_spec (db : DB) (name source : String)
    (category glass description instructions : Option String) :
    ∃ r2 : CocktailRow,
      findCocktail (upsert_cocktail db name source category glass description instructions).2
        name source = some r2 ∧
      (upsert_cocktail db name source category glass description instructions).1 = r2.id ∧
      r2.category = category ∧
      r2.glassTypeId = coalesce (get_or_create_glass db glass).1
        ((findCocktail db name source).bind (fun r => r.glassTypeId)) ∧
      r2.description = coalesce description
        ((findCocktail db name source).bind (fun r => r.description)) ∧
      r2.instructions = coalesce instructions
        ((findCocktail db name source).bind (fun r => r.instructions)) ∧
      ∀ r, findCocktail db name source = some r → r2.id = r.id := by
  have hc : (get_or_create_glass db glass).2.cocktails = db.cocktails :=
    get_or_create_glass_cocktails db glass
  have hprev : findCocktail db name source =
      (get_or_create_glass db glass).2.cocktails.find? (cocktailKey name source) := by
    unfold findCocktail
    rw [hc]
  cases h : (get_or_create_glass db glass).2.cocktails.find? (cocktailKey name source) with
  | some r =>
      refine ⟨mergeCocktailRow category (get_or_create_glass db glass).1
        description instructions r, ?_, ?_, rfl, ?_, ?_, ?_, ?_⟩
      · show findCocktail _ name source = _
        unfold findCocktail
        simp only [upsert_cocktail, h]
        exact updateFirst_find?_self h
          (by rw [cocktailKey_merge]; exact List.find?_some h)
      · simp only [upsert_cocktail, h]
        rfl
      · rw [hprev, h]
        rfl
      · rw [hprev, h]
        rfl
      · rw [hprev, h]
        rfl
      · intro r' hr'
        rw [hprev, h] at hr'
        cases hr'
        rfl
  | none =>
      refine ⟨⟨(get_or_create_glass db glass).2.nextCocktailId, name, source, category,
        (get_or_create_glass db glass).1, description, instructions⟩, ?_, ?_, rfl, ?_, ?_, ?_, ?_⟩
      · show findCocktail _ name source = _
        unfold findCocktail
        simp only [upsert_cocktail, h]
        rw [find?_append_of_none _ h]
        simp [List.find?_cons_of_pos, cocktailKey]
      · simp only [upsert_cocktail, h]
      · rw [hprev, h, Option.none_bind, coalesce_none_right]
      · rw [hprev, h, Option.none_bind, coalesce_none_right]
      · rw [hprev, h, Option.none_bind, coalesce_none_right]
      · intro r' hr'
        rw [hprev, h] at hr'
        cases hr'

/-- upsert_cocktail does not disturb rows stored under a different name. -/
theorem upsert_cocktail_other (db : DB) (name source : String)
    (category glass description instructions : Option String)
    (n s : String) (hne : n ≠ name) :
    findCocktail (upsert_cocktail db name source category glass description instructions).2 n s
      = findCocktail db n s := by
  have hc : (get_or_create_glass db glass).2.cocktails = db.cocktails :=
    get_or_create_glass_cocktails db glass
  unfold findCocktail
  cases h : (get_or_create_glass db glass).2.cocktails.find? (cocktailKey name source) with
  | some r =>
      simp only [upsert_cocktail, h]
      rw [updateFirst_find?_disjoint]
      · rw [hc]
      · intro x hx
        have hx' := (cocktailKey_true_iff name source x).mp hx
        simp [cocktailKey, hx'.1, hne.symm]
      · intro x hx
        rw [cocktailKey_merge]
        have hx' := (cocktailKey_true_iff name source x).mp hx
        simp [cocktailKey, hx'.1, hne.symm]
  | none =>
      simp only [upsert_cocktail, h]
      rw [find?_append_single_false]
      · rw [hc]
      · simp [cocktailKey, hne.symm]

/-! ## Per-drink and whole-import lemmas -/

theorem drinkStep_created (sp : SourceSpec) (acc : ImportCounts × DB) (d : String) :
    (drinkStep sp acc d).1.created = acc.1.created + 1 := rfl

theorem drinkStep_find_self (sp : SourceSpec) (acc : ImportCounts × DB) (d : String) :
    ((findCocktail (drinkStep sp acc d).2 d sp.srcName).map (fun r => r.category))
      = some (sp.categoryOf d) := by
  obtain ⟨r2, hfind, _, hcat, -, -, -, -⟩ :=
    upsert_cocktail_spec acc.2 d sp.srcName (sp.categoryOf d) (sp.glassOf d) none none
  have hpres : (drinkStep sp acc d).2.cocktails =
      (upsert_cocktail acc.2 d sp.srcName (sp.categoryOf d) (sp.glassOf d) none none).2.cocktails := by
    simp only [drinkStep]
    exact ingFold_cocktails _ _ _ _
  rw [findCocktail_congr hpres d sp.srcName, hfind]
  simp [hcat]

theorem drinkStep_find_other (sp : SourceSpec) (acc : ImportCounts × DB) (d : String)
    (n s : String) (hne : n ≠ d) :
    findCocktail (drinkStep sp acc d).2 n s = findCocktail acc.2 n s := by
  have hpres : (drinkStep sp acc d).2.cocktails =
      (upsert_cocktail acc.2 d sp.srcName (sp.categoryOf d) (sp.glassOf d) none none).2.cocktails := by
    simp only [drinkStep]
    exact ingFold_cocktails _ _ _ _
  rw [findCocktail_congr hpres n s]
  exact upsert_cocktail_other acc.2 d sp.srcName _ _ none none n s hne

theorem fold_drinkStep_created (sp : SourceSpec) (L : List String)
    (acc : ImportCounts × DB) :
    (L.foldl (drinkStep sp) acc).1.created = acc.1.created + L.length := by
  induction L generalizing acc with
  | nil => rfl
  | cons x xs ih =>
      rw [List.foldl_cons, ih, drinkStep_created, List.length_cons]
      omega

theorem fold_drinkStep_find_other (sp : SourceSpec) (L : List String)
    (acc : ImportCounts × DB) (n s : String) (hn : n ∉ L) :
    findCocktail (L.foldl (drinkStep sp) acc).2 n s = findCocktail acc.2 n s := by
  induction L generalizing acc with
  | nil => rfl
  | cons x xs ih =>
      rw [List.foldl_cons, ih _ (fun hmem => hn (List.mem_cons_of_mem x hmem)),
        drinkStep_find_other]
      intro hx
      exact hn (hx ▸ List.mem_cons_self x xs)

theorem fold_drinkStep_category (sp : SourceSpec) (L : List String) (hnd : L.Nodup)
    (d : String) (hd : d ∈ L) (acc : ImportCounts × DB) :
    ((findCocktail (L.foldl (drinkStep sp) acc).2 d sp.srcName).map (fun r => r.category))
      = some (sp.categoryOf d) := by
  induction L generalizing acc with
  | nil => cases hd
  | cons x xs ih =>
      rw [List.foldl_cons]
      rcases List.mem_cons.mp hd with heq | hmem
      · subst heq
        have hnotin : d ∉ xs := (List.nodup_cons.mp hnd).1
        rw [fold_drinkStep_find_other sp xs _ d sp.srcName hnotin]
        exact drinkStep_find_self sp acc d
      · exact ih (List.nodup_cons.mp hnd).2 hmem _

theorem runImport_category (sp : SourceSpec) (db : DB) (names : List String)
    (limit : Option Nat) (d : String)
    (hd : d ∈ applyLimit limit (sortStrings names.dedup)) :
    ((findCocktail (runImport sp db names limit).2 d sp.srcName).map (fun r => r.category))
      = some (sp.categoryOf d) :=
  fold_drinkStep_category sp _ (processed_nodup names limit) d hd _

/-! ## Claims -/

/-- Claim C1: running the normalizer a second time over unchanged staging data
is claimed to leave all canonical tables unchanged.  The code violates this: a
staging row whose glass value is whitespace-only but non-empty passes the
truthiness guard, title-cases to NULL, never matches the lookup, and so every
run inserts a fresh NULL-named glass_type row; the second run leaves a
different glass_type table than the first. -/
theorem C1_idempotence_fails_on_blank_glass :
    let st : List TCDBRow := [⟨"A", none, some " ", none, none, none⟩]
    let once := import_the_cocktail_db emptyDB st none
    let twice := import_the_cocktail_db once.2 st none
    once.2.glassTypes.length = 1 ∧ twice.2.glassTypes.length = 2 ∧
    twice.2.glassTypes ≠ once.2.glassTypes ∧
    (findCocktail once.2 "A" "the_cocktail_db").map (fun r => r.glassTypeId) = some (some 1) ∧
    (findCocktail twice.2 "A" "the_cocktail_db").map (fun r => r.glassTypeId) = some (some 2) := by
  decide

/-- Claim C2 counterexample: the slot loop of load_all_drinks checks only that
the ingredient cell is non-missing, so a whitespace-only cell — empty after
trimming — still contributes a record, contradicting the claimed iff. -/
theorem C2_counterexample :
    pyStrip " " = "" ∧
    load_all_drinks_row ⟨"Martini", [some " "], []⟩ =
      [⟨"Martini", " ", "", "all_drinks"⟩] := by
  decide

/-- Claim C2 as amended: for slots 1..15, a record is contributed iff the
slot's ingredient cell is non-missing (whitespace-only cells still contribute
and no trimming happens); a missing measure cell yields the empty-string
quantity and a present one is kept verbatim; the record carries no order
field; every contributed record appears in the row's output. -/
theorem C2_slot_population (row : WideRow) (i : Nat) (h1 : 1 ≤ i) (h2 : i ≤ 15) :
    ((slotRecord row i).isSome ↔ (row.ingredientSlots.getD (i - 1) none).isSome) ∧
    (∀ ing : String, row.ingredientSlots.getD (i - 1) none = some ing →
        row.measureSlots.getD (i - 1) none = none →
        slotRecord row i = some ⟨row.strDrink, ing, "", "all_drinks"⟩) ∧
    (∀ ing m : String, row.ingredientSlots.getD (i - 1) none = some ing →
        row.measureSlots.getD (i - 1) none = some m →
        slotRecord row i = some ⟨row.strDrink, ing, m, "all_drinks"⟩) ∧
    (∀ rec : MeasurementRec, slotRecord row i = some rec →
        rec ∈ load_all_drinks_row row) := by
  refine ⟨?_, ?_, ?_, ?_⟩
  · unfold slotRecord
    cases hg : row.ingredientSlots.getD (i - 1) none <;> simp
  · intro ing hg hm
    unfold slotRecord
    rw [hg, hm]
  · intro ing m hg hm
    unfold slotRecord
    rw [hg, hm]
  · intro rec hrec
    unfold load_all_drinks_row
    exact List.mem_filterMap.mpr ⟨i - 1, List.mem_range.mpr (by omega),
      by rw [Nat.sub_add_cancel h1]; exact hrec⟩

/-- Witness for C2_slot_population at slot 1 of a concrete row with a missing
measure cell. -/
theorem C2_slot_population_witness :
    slotRecord ⟨"Gin Fizz", [some "Gin"], []⟩ 1 =
      some ⟨"Gin Fizz", "Gin", "", "all_drinks"⟩ :=
  (C2_slot_population ⟨"Gin Fizz", [some "Gin"], []⟩ 1 (by decide) (by decide)).2.1
    "Gin" rfl rfl

/-- Claim C3: after an upsert the stored row at (name, source) has category
equal to the incoming category unconditionally, glass/description/instructions
equal to the incoming value when non-null and otherwise the previously stored
value, and the returned identifier is the stored row's id in both the insert
and update path (the id of the pre-existing row when there was one). -/
theorem C3_cocktail_upsert_merge (db : DB) (name source : String)
    (category glass description instructions : Option String) :
    ∃ r2 : CocktailRow,
      findCocktail (upsert_cocktail db name source category glass description instructions).2
        name source = some r2 ∧
      (upsert_cocktail db name source category glass description instructions).1 = r2.id ∧
      r2.category = category ∧
      r2.glassTypeId = coalesce (get_or_create_glass db glass).1
        ((findCocktail db name source).bind (fun r => r.glassTypeId)) ∧
      r2.description = coalesce description
        ((findCocktail db name source).bind (fun r => r.description)) ∧
      r2.instructions = coalesce instructions
        ((findCocktail db name source).bind (fun r => r.instructions)) ∧
      ∀ r, findCocktail db name source = some r → r2.id = r.id :=
  upsert_cocktail_spec db name source category glass description instructions

/-- Witness for C3 on the update path: re-importing Daiquiri with null category
and new instructions stores exactly those merged values and returns the
existing id. -/
theorem C3_cocktail_upsert_merge_witness :
    ((findCocktail (upsert_cocktail
        (upsert_cocktail emptyDB "Daiquiri" "s" (some "Classic") none none none).2
        "Daiquiri" "s" none none none (some "Shake")).2 "Daiquiri" "s").map
      (fun r => (r.id, r.category, r.instructions))) = some (1, none, some "Shake") ∧
    (upsert_cocktail
        (upsert_cocktail emptyDB "Daiquiri" "s" (some "Classic") none none none).2
        "Daiquiri" "s" none none none (some "Shake")).1 = 1 := by
  obtain ⟨r2, hfind, hid, -, -, -, -, -⟩ :=
    C3_cocktail_upsert_merge
      (upsert_cocktail emptyDB "Daiquiri" "s" (some "Classic") none none none).2
      "Daiquiri" "s" none none none (some "Shake")
  have hconc : findCocktail (upsert_cocktail
      (upsert_cocktail emptyDB "Daiquiri" "s" (some "Classic") none none none).2
      "Daiquiri" "s" none none none (some "Shake")).2 "Daiquiri" "s" =
      some ⟨1, "Daiquiri", "s", none, none, none, some "Shake"⟩ := by
    decide
  have hr2 : r2 = ⟨1, "Daiquiri", "s", none, none, none, some "Shake"⟩ :=
    (Option.some_inj.mp (hconc.symm.trans hfind)).symm
  constructor
  · rw [hconc]
    rfl
  · rw [hid, hr2]

/-- Claim C4 counterexample: category is overwritten unconditionally, so a
re-import with a null category regresses a stored non-null category to null,
contradicting the claim that no field among the four ever regresses. -/
theorem C4_counterexample :
    ((findCocktail (upsert_cocktail emptyDB "A" "s" (some "Classic") none none none).2
        "A" "s").map (fun r => r.category)) = some (some "Classic") ∧
    ((findCocktail (upsert_cocktail
        (upsert_cocktail emptyDB "A" "s" (some "Classic") none none none).2
        "A" "s" none none none none).2 "A" "s").map (fun r => r.category)) = some none := by
  decide

/-- Claim C4 as amended: for an existing (name, source) row, glass,
description and instructions never regress from non-null to null — a null
incoming value retains the stored value and a non-null incoming value
overwrites it — while category is overwritten unconditionally, including to
null. -/
theorem C4_no_null_regression_except_category (db : DB) (name source : String)
    (category glass description instructions : Option String) (r : CocktailRow)
    (h : findCocktail db name source = some r) :
    ∃ r2 : CocktailRow,
      findCocktail (upsert_cocktail db name source category glass description instructions).2
        name source = some r2 ∧
      ((get_or_create_glass db glass).1 = none → r2.glassTypeId = r.glassTypeId) ∧
      (description = none → r2.description = r.description) ∧
      (instructions = none → r2.instructions = r.instructions) ∧
      (∀ g, (get_or_create_glass db glass).1 = some g → r2.glassTypeId = some g) ∧
      (∀ v, description = some v → r2.description = some v) ∧
      (∀ v, instructions = some v → r2.instructions = some v) ∧
      r2.category = category := by
  obtain ⟨r2, hfind, -, hcat, hg, hd, hi, -⟩ :=
    upsert_cocktail_spec db name source category glass description instructions
  rw [h, Option.some_bind] at hg hd hi
  refine ⟨r2, hfind, ?_, ?_, ?_, ?_, ?_, ?_, hcat⟩
  · intro hn
    rw [hg, hn, coalesce_none_left]
  · intro hn
    rw [hd, hn, coalesce_none_left]
  · intro hn
    rw [hi, hn, coalesce_none_left]
  · intro g hn
    rw [hg, hn, coalesce_some_left]
  · intro v hn
    rw [hd, hn, coalesce_some_left]
  · intro v hn
    rw [hi, hn, coalesce_some_left]

/-- Witness for C4_no_null_regression_except_category: instructions survive a
null re-import while a fresh value overwrites the description. -/
theorem C4_no_null_regression_except_category_witness :
    ∃ r2 : CocktailRow,
      findCocktail (upsert_cocktail
          (upsert_cocktail emptyDB "B" "s" none none (some "old") (some "keep")).2
          "B" "s" none none (some "new") none).2 "B" "s" = some r2 ∧
      r2.description = some "new" ∧ r2.instructions = some "keep" := by
  obtain ⟨r2, hfind, -, -, hin, -, hds, -⟩ :=
    C4_no_null_regression_except_category
      (upsert_cocktail emptyDB "B" "s" none none (some "old") (some "keep")).2
      "B" "s" none none (some "new") none
      ⟨1, "B", "s", none, none, some "old", some "keep"⟩ (by decide)
  exact ⟨r2, hfind, hds "new" rfl, hin rfl⟩

/-- Claim C5: for an existing relationship row at (cocktail_id, ingredient_id),
an upsert replaces quantity, order index and source_dataset unconditionally
with the incoming values — last-write-wins, even when the incoming quantity is
empty or null. -/
theorem C5_relationship_overwrite (db : DB) (cid iid : Nat) (q : Option String)
    (o : Option Int) (s : Option String) (r : CIRow)
    (h : findCI db cid iid = some r) :
    findCI (upsert_cocktail_ingredient db cid iid q o s) cid iid =
      some { r with quantity := q, ingredientOrder := o, sourceDataset := s } := by
  unfold findCI at h ⊢
  simp only [upsert_cocktail_ingredient, h]
  have hk : ciKey cid iid r = true := List.find?_some h
  exact @updateFirst_find?_self CIRow (ciKey cid iid)
    (fun x => { x with quantity := q, ingredientOrder := o, sourceDataset := s })
    db.cocktailIngredients r h hk

/-- Witness for C5_relationship_overwrite: a stored "2 oz" quantity is
replaced by null and the order and attribution change with it. -/
theorem C5_relationship_overwrite_witness :
    findCI (upsert_cocktail_ingredient
        ⟨[], [], [], [⟨1, 2, some "2 oz", some 1, some "a"⟩], 1, 1, 1⟩
        1 2 none (some 4) (some "b")) 1 2 =
      some ⟨1, 2, none, some 4, some "b"⟩ :=
  C5_relationship_overwrite ⟨[], [], [], [⟨1, 2, some "2 oz", some 1, some "a"⟩], 1, 1, 1⟩
    1 2 none (some 4) (some "b") ⟨1, 2, some "2 oz", some 1, some "a"⟩ rfl

/-- Claim C6: for an empty or whitespace-only name the ingredient resolver
fails with the validation error, and the glass resolver is claimed to return
no identifier and create no row.  The ingredient half and the empty-string
glass half hold, but a whitespace-only glass name passes the truthiness guard,
title-cases to NULL, never matches the lookup, and the code inserts a
NULL-named glass_type row and returns its id — contradicting the claim. -/
theorem C6_blank_name_resolution :
    get_or_create_ingredient emptyDB " " = .error "ingredient name cannot be empty" ∧
    get_or_create_ingredient emptyDB "" = .error "ingredient name cannot be empty" ∧
    (get_or_create_glass emptyDB (some "")).1 = none ∧
    (get_or_create_glass emptyDB (some "")).2 = emptyDB ∧
    (get_or_create_glass emptyDB none).1 = none ∧
    (get_or_create_glass emptyDB none).2 = emptyDB ∧
    (get_or_create_glass emptyDB (some " ")).1 = some 1 ∧
    (get_or_create_glass emptyDB (some " ")).2.glassTypes = [⟨1, none⟩] := by
  refine ⟨rfl, rfl, rfl, rfl, rfl, rfl, rfl, rfl⟩

/-- Claim C7: resolving two ingredient names with the same non-empty trimmed
form against a datastore in which that name is stored at most once (the
table's uniqueness invariant) yields the same identifier both times, the
second call changes nothing, and exactly one row for the trimmed name remains. -/
theorem C7_ingredient_resolution_stable (db : DB) (n1 n2 : String)
    (h12 : pyStrip n1 = pyStrip n2) (hne : pyStrip n1 ≠ "")
    (huniq : countIngName db (pyStrip n1) ≤ 1) :
    ∃ i db1, get_or_create_ingredient db n1 = .ok (i, db1) ∧
      get_or_create_ingredient db1 n2 = .ok (i, db1) ∧
      countIngName db1 (pyStrip n1) = 1 := by
  have hb : (pyStrip n1 == "") = false := by
    simpa using hne
  have hb2 : (pyStrip n2 == "") = false := by
    rw [← h12]
    exact hb
  have h21 : pyStrip n2 = pyStrip n1 := h12.symm
  cases hf : db.ingredients.find? (fun r => r.name == pyStrip n1) with
  | some r =>
      refine ⟨r.id, db, ?_, ?_, ?_⟩
      · simp [get_or_create_ingredient, hb, hf]
      · simp [get_or_create_ingredient, h21, hb, hf]
      · have hpr := List.find?_some hf
        have hmem : r ∈ db.ingredients.filter (fun r => r.name == pyStrip n1) :=
          List.mem_filter.mpr ⟨List.mem_of_find?_eq_some hf, hpr⟩
        have hpos : 0 < countIngName db (pyStrip n1) :=
          List.length_pos_of_mem hmem
        unfold countIngName at huniq hpos ⊢
        omega
  | none =>
      refine ⟨db.nextIngredientId,
        { db with ingredients := db.ingredients ++ [⟨db.nextIngredientId, pyStrip n1⟩],
                  nextIngredientId := db.nextIngredientId + 1 }, ?_, ?_, ?_⟩
      · simp [get_or_create_ingredient, hb, hf]
      · simp only [get_or_create_ingredient, h21, hb, Bool.false_eq_true, if_false]
        rw [find?_append_of_none _ hf]
        simp
      · have hnil : db.ingredients.filter (fun r => r.name == pyStrip n1) = [] := by
          rw [List.filter_eq_nil_iff]
          exact List.find?_eq_none.mp hf
        unfold countIngName
        simp [List.filter_append, hnil]

/-- Witness for C7_ingredient_resolution_stable: " Rum " and "Rum " resolve to
one identifier starting from the empty datastore. -/
theorem C7_ingredient_resolution_stable_witness :
    ∃ i db1, get_or_create_ingredient emptyDB " Rum " = .ok (i, db1) ∧
      get_or_create_ingredient db1 "Rum " = .ok (i, db1) ∧
      countIngName db1 (pyStrip " Rum ") = 1 :=
  C7_ingredient_resolution_stable emptyDB " Rum " "Rum " (by decide) (by decide) (by decide)

/-- Claim C8: a staging row whose ingredient name is blank after trimming is
skipped silently by the per-ingredient step of either importer — the datastore
and the relationships counter are unchanged and no error escapes — and a
whole import over such a row completes, upserting the cocktail but creating no
relationship. -/
theorem C8_blank_ingredient_skipped (srcName : String) (cid : Nat) (db : DB)
    (rels : Nat) (o : Option Int) (ing : String) (m : Option String)
    (h : pyStrip ing = "") :
    ingredientStep srcName cid (db, rels) (o, ing, m) = (db, rels) ∧
    (import_the_cocktail_db emptyDB [⟨"A", none, none, none, some " ", none⟩] none).1.rels = 0 ∧
    (import_the_cocktail_db emptyDB [⟨"A", none, none, none, some " ", none⟩] none).1.created = 1 ∧
    (import_the_cocktail_db emptyDB [⟨"A", none, none, none, some " ", none⟩] none).2.cocktailIngredients = [] := by
  refine ⟨?_, by decide, by decide, by decide⟩
  have hb : (pyStrip ing == "") = true := by simp [h]
  simp only [ingredientStep, get_or_create_ingredient, hb, if_true]

/-- Witness for C8_blank_ingredient_skipped at a whitespace-only name. -/
theorem C8_blank_ingredient_skipped_witness :
    ingredientStep "the_cocktail_db" 1 (emptyDB, 0) (none, " ", none) = (emptyDB, 0) :=
  (C8_blank_ingredient_skipped "the_cocktail_db" 1 emptyDB 0 none " " none (by decide)).1

/-- Claim C9 counterexample: a limit of 0 is falsy in Python, so no LIMIT
clause is emitted and the import processes every distinct cocktail instead of
at most zero. -/
theorem C9_limit_zero_unbounded :
    (import_the_cocktail_db emptyDB [⟨"A", none, none, none, none, none⟩] (some 0)).1.created = 1 ∧
    ¬ (import_the_cocktail_db emptyDB [⟨"A", none, none, none, none, none⟩] (some 0)).1.created ≤ 0 := by
  decide

/-- Claim C9 as amended: for every positive limit N each importer processes at
most N distinct cocktail names; a limit of 0 or None is treated as no limit. -/
theorem C9_positive_limit_caps (db1 db2 : DB) (st : List TCDBRow)
    (bst : List BostonRow) (n : Nat) (h : 0 < n) :
    (import_the_cocktail_db db1 st (some n)).1.created ≤ n ∧
    (import_boston_cocktails db2 bst (some n)).1.created ≤ n := by
  have hb : (n == 0) = false := by
    simp
    omega
  constructor
  · show (runImport (tcdbSpec st) db1 _ (some n)).1.created ≤ n
    unfold runImport
    rw [fold_drinkStep_created]
    simp [applyLimit, hb, List.length_take]
  · show (runImport (bostonSpec bst) db2 _ (some n)).1.created ≤ n
    unfold runImport
    rw [fold_drinkStep_created]
    simp [applyLimit, hb, List.length_take]

/-- Witness for C9_positive_limit_caps: a limit of 1 over a two-drink staging
table processes at most one cocktail. -/
theorem C9_positive_limit_caps_witness :
    (import_the_cocktail_db emptyDB
      [⟨"A", none, none, none, none, none⟩, ⟨"B", none, none, none, none, none⟩]
      (some 1)).1.created ≤ 1 :=
  (C9_positive_limit_caps emptyDB emptyDB
    [⟨"A", none, none, none, none, none⟩, ⟨"B", none, none, none, none, none⟩]
    [] 1 (by decide)).1

/-- Claim C10: the category stored for a processed cocktail is the SQL MAX
aggregate over that cocktail's staging rows (NULLs ignored, greatest value in
sort order) for both importers, and a concrete two-row staging table shows the
the_cocktail_db glass likewise takes the MAX ("Rocks"), not the first-seen
value ("Flute"). -/
theorem C10_group_max_attributes (db1 db2 : DB) (st : List TCDBRow)
    (bst : List BostonRow) (lim1 lim2 : Option Nat) (d b : String)
    (h1 : d ∈ applyLimit lim1 (sortStrings ((st.map (fun r => r.drink)).dedup)))
    (h2 : b ∈ applyLimit lim2 (sortStrings ((bst.map (fun r => r.name)).dedup))) :
    ((findCocktail (import_the_cocktail_db db1 st lim1).2 d "the_cocktail_db").map
        (fun r => r.category)
      = some (sqlMaxStr ((st.filter (fun r => r.drink == d)).map (fun r => r.category)))) ∧
    ((findCocktail (import_boston_cocktails db2 bst lim2).2 b "boston_cocktails").map
        (fun r => r.category)
      = some (sqlMaxStr ((bst.filter (fun r => r.name == b)).map (fun r => r.category)))) ∧
    ((findCocktail (import_the_cocktail_db emptyDB
        [⟨"A", none, some "Flute", none, none, none⟩, ⟨"A", none, some "Rocks", none, none, none⟩]
        none).2 "A" "the_cocktail_db").map (fun r => r.glassTypeId) = some (some 1) ∧
      (import_the_cocktail_db emptyDB
        [⟨"A", none, some "Flute", none, none, none⟩, ⟨"A", none, some "Rocks", none, none, none⟩]
        none).2.glassTypes = [⟨1, some "Rocks"⟩]) := by
  refine ⟨?_, ?_, by decide⟩
  · exact runImport_category (tcdbSpec st) db1 (st.map (fun r => r.drink)) lim1 d h1
  · exact runImport_category (bostonSpec bst) db2 (bst.map (fun r => r.name)) lim2 b h2

/-- Witness for C10_group_max_attributes: with two staging rows per cocktail
the stored category is the MAX ("Zeta" resp. "Zed"), not the first-seen value. -/
theorem C10_group_max_attributes_witness :
    ((findCocktail (import_the_cocktail_db emptyDB
        [⟨"A", some "Alpha", none, none, none, none⟩, ⟨"A", some "Zeta", none, none, none, none⟩]
        none).2 "A" "the_cocktail_db").map (fun r => r.category) = some (some "Zeta")) ∧
    ((findCocktail (import_boston_cocktails emptyDB
        [⟨"B", some "Beta", none, none, none⟩, ⟨"B", some "Zed", none, none, none⟩]
        none).2 "B" "boston_cocktails").map (fun r => r.category) = some (some "Zed")) := by
  have h := C10_group_max_attributes emptyDB emptyDB
    [⟨"A", some "Alpha", none, none, none, none⟩, ⟨"A", some "Zeta", none, none, none, none⟩]
    [⟨"B", some "Beta", none, none, none⟩, ⟨"B", some "Zed", none, none, none⟩]
    none none "A" "B" (by decide) (by decide)
  exact ⟨h.1.trans (by decide), h.2.1.trans (by decide)⟩

end BartendersFriend
